import Mathlib

/-!
Verification of the Brevis circuit-examples repository: a shallow embedding of
the verification-and-aggregation engine used by the example circuits
(pattern matching over provenance-tagged evidence records, all-or-fail batch
validation, width-checked aggregation, threshold assertion and fixed-layout
output encoding), together with the per-circuit predicates translated from
the Go sources under `examples/`.

Circuit code (`examples/.../circuit.go`) is embedded directly from the source.
The SDK primitives the circuits call (`sdk.AssertEach`, `sdk.Sum`, `sdk.Count`,
`api.OutputUint`, `u248.AssertIsLessOrEqual`, ...) live outside this
repository; their definitions below are modelled from the specification's
component contracts and are marked as such in their doc comments.
-/

namespace BrevisSpec

/-- The modulus of the 248-bit unsigned numeric domain (`sdk.Uint248`). -/
def U248_MOD : Nat := 2 ^ 248

/-- Modelled from the spec: `api.ToUint248` (the Extractor, §4.3) projects a
256-bit field value to the 248-bit scalar domain by taking its low bits
("the scalar value (or address, recognized as the low bits of the value)").
The SDK implementation is outside this repository. -/
def toUint248 (v : Nat) : Nat := v % U248_MOD

/-- One tracked log field of a receipt (`sdk.LogField`): provenance tag
(contract, event identifier, topic/data flag, position, log position) plus the
256-bit value. -/
structure LogField where
  contract : Nat
  eventID : Nat
  isTopic : Bool
  index : Nat
  value : Nat
  logPos : Nat
  deriving DecidableEq

/-- A receipt record (`sdk.Receipt`): block number plus the fixed four
trackable log fields (`r.Fields[0] .. r.Fields[3]`). -/
structure Receipt where
  blockNum : Nat
  field0 : LogField
  field1 : LogField
  field2 : LogField
  field3 : LogField
  deriving DecidableEq

/-- A storage-slot record (`sdk.StorageSlot`): contract, slot key, value and
block number. -/
structure StorageSlot where
  contract : Nat
  slot : Nat
  value : Nat
  blockNum : Nat
  deriving DecidableEq

/-- The error taxonomy of §7: every failure of an invocation is one of these
distinguishable fatal errors. -/
inductive CircuitErr where
  | patternMismatch
  | capacityMismatch
  | overflow
  | thresholdUnmet
  deriving DecidableEq

/-- Modelled from the spec: `sdk.AssertEach` (Batch Validator, §4.2) asserts
that the predicate holds of every record in the batch — all-or-fail, no
per-record filtering. The SDK implementation is outside this repository. -/
def assertEach {α : Type} (p : α → Bool) (batch : List α) : Bool :=
  batch.all p

/-- Modelled from the spec: one width-checked addition in the 248-bit domain
(Aggregator, §4.4): overflow must raise an error, not wrap. The SDK
implementation is outside this repository. -/
def addU248 (a b : Nat) : Option Nat :=
  if a + b < U248_MOD then some (a + b) else none

/-- Modelled from the spec: `sdk.Sum` (Aggregator, §4.4) accumulates the
extracted scalars with width-checked addition; any overflow aborts with an
error rather than returning a wrapped value. The SDK implementation is
outside this repository. -/
def sumU248 (l : List Nat) : Option Nat :=
  l.foldl (fun acc x => acc.bind (fun a => addU248 a x)) (some 0)

/-- Modelled from the spec: `sdk.Count` (Aggregator, §4.4) returns the batch's
fixed size. The SDK implementation is outside this repository. -/
def countRecords {α : Type} (l : List α) : Nat := l.length

/-- Modelled from the spec: `u248.AssertIsLessOrEqual` (Threshold Asserter,
§4.5), the one-sided variant: succeeds exactly when `threshold <= observed`.
The SDK implementation is outside this repository. -/
def assertIsLessOrEqual (a b : Nat) : Bool := decide (a ≤ b)

/-- The two-sided Threshold Asserter variant (§4.5), as used by the price
range checks: both `min <= observed` and `observed <= max` must hold. -/
def twoSidedThresholdAssert (lo hi observed : Nat) : Bool :=
  assertIsLessOrEqual lo observed && assertIsLessOrEqual observed hi

/-- Big-endian byte string of exactly `n` bytes for the value `v`
(most significant byte first). -/
def beBytes : Nat → Nat → List Nat
  | 0, _ => []
  | n + 1, v => beBytes n (v / 256) ++ [v % 256]

/-- Modelled from the spec: one slot of the Output Encoder (§4.6): a value
tagged with its bit width occupies a fixed-size big-endian slot of
`bitWidth / 8` bytes; a value exceeding its declared width fails cleanly
rather than being truncated. The SDK implementation is outside this
repository. -/
def encodeSlot (bitWidth v : Nat) : Option (List Nat) :=
  if v < 2 ^ bitWidth then some (beBytes (bitWidth / 8) v) else none

/-- Modelled from the spec: the Output Encoder (§4.6) serializes the ordered
list of (bit width, value) pairs into a single buffer, slots concatenated in
declaration order. The SDK implementation is outside this repository. -/
def encodeOutputs : List (Nat × Nat) → Option (List Nat)
  | [] => some []
  | s :: rest =>
    (encodeSlot s.1 s.2).bind (fun b => (encodeOutputs rest).map (fun bs => b ++ bs))

/-- Decode a big-endian byte string to a natural number. -/
def decodeBE (bytes : List Nat) : Nat :=
  bytes.foldl (fun acc b => acc * 256 + b) 0

/-- Decode a buffer at the fixed offsets determined by the declared bit
widths, producing the list of slot values in declaration order. -/
def decodeAll : List Nat → List Nat → List Nat
  | [], _ => []
  | w :: ws, buf => decodeBE (buf.take (w / 8)) :: decodeAll ws (buf.drop (w / 8))

/-- Modelled from the spec: `u248.Or`, the first-class OR combinator over two
sub-patterns (§4.1). The SDK implementation is outside this repository. -/
def uOr (a b : Bool) : Bool := a || b

/-- Modelled from the spec: `u248.Sub`, difference in the fixed 248-bit
domain (modular, as the spec leaves only the width declared). The SDK
implementation is outside this repository. -/
def subU248 (a b : Nat) : Nat := (a + (U248_MOD - b % U248_MOD)) % U248_MOD

/-- Modelled from the spec: the Batch Validator applied to a batch with a
declared capacity (§3, §5, §7): a supplied batch whose size differs from the
declared capacity is a CapacityMismatch failure — capacity is exact, not a
maximum, and unused slots are not permitted — and otherwise every record
must match its pattern. -/
def validateBatch (capacity : Nat) (p : Receipt → Bool) (batch : List Receipt) :
    Except CircuitErr Unit :=
  if countRecords batch = capacity then
    if assertEach p batch then .ok () else .error .patternMismatch
  else .error .capacityMismatch

namespace Sushiswap

/-- SushiSwap USDC/WETH pair address (`circuit.go`). -/
def USDCWETHPair : Nat := 0x397FF1542f962076d0BFE58eA045FfA2d347ACa0

/-- Swap event identifier declared in `sushiswap/circuit.go`. -/
def EventIdSwap : Nat :=
  0xd78ad95fa46c994b6551d0da85fc275fe613ce37657fb8d5e3d130840159d822

/-- The per-record predicate passed to `sdk.AssertEach` in
`examples/dex-volume/sushiswap/circuit.go` (lines 56-91). -/
def predicate (userAddr : Nat) (r : Receipt) : Bool :=
  let contractMatches :=
    decide (r.field0.contract = USDCWETHPair) && decide (r.field1.contract = USDCWETHPair)
  let eventIdMatches :=
    decide (r.field0.eventID = EventIdSwap) && decide (r.field1.eventID = EventIdSwap)
  let fieldIndicesCorrect :=
    (!r.field0.isTopic) && decide (r.field0.index = 3) &&
      r.field1.isTopic && decide (r.field1.index = 2)
  let userMatches := decide (toUint248 r.field1.value = userAddr)
  contractMatches && eventIdMatches && fieldIndicesCorrect && userMatches

/-- The declared Pattern of the SushiSwap circuit, written out field by
field: exact equality on every provenance attribute plus the user-parameter
value check. -/
def patternHolds (userAddr : Nat) (r : Receipt) : Prop :=
  r.field0.contract = USDCWETHPair ∧ r.field1.contract = USDCWETHPair ∧
  r.field0.eventID = EventIdSwap ∧ r.field1.eventID = EventIdSwap ∧
  r.field0.isTopic = false ∧ r.field0.index = 3 ∧
  r.field1.isTopic = true ∧ r.field1.index = 2 ∧
  toUint248 r.field1.value = userAddr

/-- The Extractor of the SushiSwap circuit (lines 94-97): project each
validated receipt to `amount1Out`. -/
def extract (r : Receipt) : Nat := toUint248 r.field0.value

end Sushiswap

namespace Compound

/-- Compound cUSDC cToken address (`defi-lending/compound/circuit.go`). -/
def cUSDCAddress : Nat := 0x39AA39c021dfbaE8faC545936693aC917d5E7563

/-- Mint event identifier declared in `compound/circuit.go`. -/
def EventIdMint : Nat :=
  0x4c209b5fc8ad50758f13e2e1088ba56a560dff690a1c6fef26394f4c03821c4f

/-- The per-record predicate passed to `sdk.AssertEach` in
`examples/defi-lending/compound/circuit.go` (lines 59-100). -/
def predicate (userAddr : Nat) (r : Receipt) : Bool :=
  let contractMatches :=
    decide (r.field0.contract = cUSDCAddress) && decide (r.field1.contract = cUSDCAddress)
  let eventIdMatches :=
    decide (r.field0.eventID = EventIdMint) && decide (r.field1.eventID = EventIdMint)
  let fieldIndicesCorrect :=
    (!r.field0.isTopic) && decide (r.field0.index = 1) &&
      (!r.field1.isTopic) && decide (r.field1.index = 0)
  let userMatches := decide (toUint248 r.field1.value = userAddr)
  contractMatches && eventIdMatches && fieldIndicesCorrect && userMatches

/-- The declared Pattern of the Compound circuit, written out field by
field. -/
def patternHolds (userAddr : Nat) (r : Receipt) : Prop :=
  r.field0.contract = cUSDCAddress ∧ r.field1.contract = cUSDCAddress ∧
  r.field0.eventID = EventIdMint ∧ r.field1.eventID = EventIdMint ∧
  r.field0.isTopic = false ∧ r.field0.index = 1 ∧
  r.field1.isTopic = false ∧ r.field1.index = 0 ∧
  toUint248 r.field1.value = userAddr

/-- The Extractor of the Compound circuit (lines 103-105): project each
validated receipt to `mintAmount`. -/
def extract (r : Receipt) : Nat := toUint248 r.field0.value

/-- A zero log field used to fill unused field slots of sample receipts. -/
def zeroField : LogField :=
  { contract := 0, eventID := 0, isTopic := false, index := 0, value := 0,
    logPos := 0 }

/-- A sample `mintAmount` log field of the Mint pattern. -/
def mintW0 : LogField :=
  { contract := cUSDCAddress, eventID := EventIdMint,
    isTopic := false, index := 1, value := 40, logPos := 0 }

/-- A sample `minter` log field of the Mint pattern, naming user 5. -/
def mintW1 : LogField :=
  { contract := cUSDCAddress, eventID := EventIdMint,
    isTopic := false, index := 0, value := 5, logPos := 0 }

/-- A sample receipt matching the Compound Mint pattern for user address 5. -/
def mintReceiptW : Receipt :=
  { blockNum := 0, field0 := mintW0, field1 := mintW1,
    field2 := zeroField, field3 := zeroField }

/-- The full `Define` pipeline of `compound/circuit.go` (lines 53-123):
validate every receipt, sum the extracted amounts, assert the threshold,
then encode the output buffer. A failure at any stage aborts with a
distinguishable error and produces no output buffer. -/
def define (userAddr minSupply : Nat) (receipts : List Receipt) :
    Except CircuitErr (List Nat) :=
  if assertEach (predicate userAddr) receipts then
    match sumU248 (receipts.map extract) with
    | none => .error .overflow
    | some totalSupply =>
      if assertIsLessOrEqual minSupply totalSupply then
        let mintCount := countRecords receipts
        match encodeOutputs
            [(160, userAddr), (248, totalSupply), (248, minSupply), (64, mintCount)] with
        | none => .error .overflow
        | some buf => .ok buf
      else .error .thresholdUnmet
  else .error .patternMismatch

end Compound

namespace UniswapV2Bidir

/-- Uniswap V2 USDC/WETH pair address
(`dex-volume/uniswap-v2-bidirectional/circuit.go`). -/
def USDCWETHPair : Nat := 0xB4e16d0168e52d35CaCD2c6185b44281Ec28C9Dc

/-- Swap event identifier declared in `uniswap-v2-bidirectional/circuit.go`. -/
def EventIdSwap : Nat :=
  0xd78ad95fa46c994b6551d0da85fc275fe613ce37657fb8d5e3d130840159d822

/-- The per-record predicate passed to `sdk.AssertEach` in
`examples/dex-volume/uniswap-v2-bidirectional/circuit.go` (lines 57-106):
conjunction on contract, event id and field indices plus the `u248.Or` of
the sender-match and recipient-match sub-patterns. -/
def predicate (userAddr : Nat) (r : Receipt) : Bool :=
  let contractMatches :=
    decide (r.field0.contract = USDCWETHPair) && decide (r.field1.contract = USDCWETHPair) &&
      decide (r.field2.contract = USDCWETHPair) && decide (r.field3.contract = USDCWETHPair)
  let eventIdMatches :=
    decide (r.field0.eventID = EventIdSwap) && decide (r.field1.eventID = EventIdSwap) &&
      decide (r.field2.eventID = EventIdSwap) && decide (r.field3.eventID = EventIdSwap)
  let fieldIndicesCorrect :=
    (!r.field0.isTopic) && decide (r.field0.index = 1) &&
      (!r.field1.isTopic) && decide (r.field1.index = 3) &&
      r.field2.isTopic && decide (r.field2.index = 1) &&
      r.field3.isTopic && decide (r.field3.index = 2)
  let senderMatches := decide (toUint248 r.field2.value = userAddr)
  let recipientMatches := decide (toUint248 r.field3.value = userAddr)
  let userMatches := uOr senderMatches recipientMatches
  contractMatches && eventIdMatches && fieldIndicesCorrect && userMatches

/-- The user-independent conjuncts of the bidirectional Pattern (contract,
event id, field indices of all four tracked fields), written out field by
field. -/
def fixedPatternHolds (r : Receipt) : Prop :=
  r.field0.contract = USDCWETHPair ∧ r.field1.contract = USDCWETHPair ∧
  r.field2.contract = USDCWETHPair ∧ r.field3.contract = USDCWETHPair ∧
  r.field0.eventID = EventIdSwap ∧ r.field1.eventID = EventIdSwap ∧
  r.field2.eventID = EventIdSwap ∧ r.field3.eventID = EventIdSwap ∧
  r.field0.isTopic = false ∧ r.field0.index = 1 ∧
  r.field1.isTopic = false ∧ r.field1.index = 3 ∧
  r.field2.isTopic = true ∧ r.field2.index = 1 ∧
  r.field3.isTopic = true ∧ r.field3.index = 2

/-- A sample `amount1In` data field of the Swap pattern. -/
def swapW0 : LogField :=
  { contract := USDCWETHPair, eventID := EventIdSwap,
    isTopic := false, index := 1, value := 11, logPos := 0 }

/-- A sample `amount1Out` data field of the Swap pattern. -/
def swapW1 : LogField :=
  { contract := USDCWETHPair, eventID := EventIdSwap,
    isTopic := false, index := 3, value := 22, logPos := 0 }

/-- A sample `sender` topic field naming address 9. -/
def swapW2 : LogField :=
  { contract := USDCWETHPair, eventID := EventIdSwap,
    isTopic := true, index := 1, value := 9, logPos := 0 }

/-- A sample `to` topic field naming address 5. -/
def swapW3 : LogField :=
  { contract := USDCWETHPair, eventID := EventIdSwap,
    isTopic := true, index := 2, value := 5, logPos := 0 }

/-- A sample receipt whose `to` field names user 5 while its `sender` field
names a different address. -/
def bidirReceiptW : Receipt :=
  { blockNum := 0, field0 := swapW0, field1 := swapW1,
    field2 := swapW2, field3 := swapW3 }

end UniswapV2Bidir

namespace UniswapV2Twap

/-- The declared storage-slot capacity of the TWAP circuit: `Allocate`
returns `(0, 2, 0)`. -/
def maxSlots : Nat := 2

/-- The per-slot predicate passed to `sdk.AssertEach` in the TWAP circuit
(`uniswap-v2-twap/circuit.go`): only the contract address is checked. -/
def predicate (pairAddr : Nat) (s : StorageSlot) : Bool :=
  decide (s.contract = pairAddr)

/-- The full `Define` pipeline of the TWAP circuit: validate every slot,
sum the cumulative prices, assert the exact slot count of 2, assert the
two-sided price range, then encode the output buffer. -/
def define (pairAddr minPrice maxPrice startBlock endBlock : Nat)
    (slots : List StorageSlot) : Except CircuitErr (List Nat) :=
  if assertEach (predicate pairAddr) slots then
    match sumU248 (slots.map fun s => toUint248 s.value) with
    | none => .error .overflow
    | some totalPrices =>
      if countRecords slots = 2 then
        if twoSidedThresholdAssert minPrice maxPrice totalPrices then
          let blockRange := subU248 endBlock startBlock
          match encodeOutputs
              [(160, pairAddr), (248, totalPrices), (248, minPrice),
                (248, maxPrice), (64, blockRange)] with
          | none => .error .overflow
          | some buf => .ok buf
        else .error .thresholdUnmet
      else .error .capacityMismatch
  else .error .patternMismatch

end UniswapV2Twap

namespace NftOwnership

/-- The conjunction of the equality assertions of
`examples/nftOwnership/circuit.go` (lines 36-50): per-field provenance and
value checks for the two tracked fields, then the same-log-entry check
`Fields[0].LogPos = Fields[1].LogPos`. -/
def checks (nftContractAddr ownerAddr tokenId : Nat) (r : Receipt) : Bool :=
  decide (r.field0.contract = nftContractAddr) &&
  r.field0.isTopic && decide (r.field0.index = 2) &&
  decide (toUint248 r.field0.value = ownerAddr) &&
  decide (r.field1.contract = nftContractAddr) &&
  r.field1.isTopic && decide (r.field1.index = 3) &&
  decide (toUint248 r.field1.value = tokenId) &&
  decide (r.field0.logPos = r.field1.logPos)

/-- The full `Define` pipeline of `nftOwnership/circuit.go`: the assertion
chain followed by the output buffer. -/
def define (nftContractAddr ownerAddr tokenId : Nat) (r : Receipt) :
    Except CircuitErr (List Nat) :=
  if checks nftContractAddr ownerAddr tokenId r then
    match encodeOutputs
        [(160, ownerAddr), (160, nftContractAddr), (248, tokenId),
          (64, toUint248 r.blockNum)] with
    | none => .error .overflow
    | some buf => .ok buf
  else .error .patternMismatch

end NftOwnership

namespace LayerZero

/-- LayerZero Ethereum Endpoint address
(`cross-chain/layerzero-message/circuit.go`). -/
def EndpointEthereum : Nat := 0x66A71Dcef29A0fFBDBE3c6a460a3B5BC225Cd675

/-- PayloadStored event identifier declared in
`layerzero-message/circuit.go`. -/
def EventIdPayloadStored : Nat :=
  0xe9bded5f24a4168e4f3bf44e00298c993b22376aad8c58c7dda9718a54cbea82

/-- The per-record predicate passed to `sdk.AssertEach` in
`examples/cross-chain/layerzero-message/circuit.go` (lines 80-101). Note
that it does not mention the `UserAddr` parameter. -/
def predicate (r : Receipt) : Bool :=
  let contractMatches := decide (r.field0.contract = EndpointEthereum)
  let eventIdMatches := decide (r.field0.eventID = EventIdPayloadStored)
  let fieldIndexCorrect := (!r.field0.isTopic) && decide (r.field0.index = 2)
  contractMatches && eventIdMatches && fieldIndexCorrect

/-- The full `Define` pipeline of `layerzero-message/circuit.go`
(lines 61-116): validate every receipt, count them, assert the count
threshold, then encode `[UserAddr, messageCount, MinMessageCount]`. -/
def define (userAddr minMessageCount : Nat) (receipts : List Receipt) :
    Except CircuitErr (List Nat) :=
  if assertEach predicate receipts then
    if assertIsLessOrEqual minMessageCount (countRecords receipts) then
      match encodeOutputs
          [(160, userAddr), (64, countRecords receipts), (64, minMessageCount)] with
      | none => .error .overflow
      | some buf => .ok buf
    else .error .thresholdUnmet
  else .error .patternMismatch

end LayerZero

/-- A log field that satisfies the Compound Mint pattern for `mintAmount`. -/
def mintField0 : LogField :=
  { contract := Compound.cUSDCAddress, eventID := Compound.EventIdMint,
    isTopic := false, index := 1, value := 40, logPos := 0 }

/-- A log field that satisfies the Compound Mint pattern for `minter`. -/
def mintField1 : LogField :=
  { contract := Compound.cUSDCAddress, eventID := Compound.EventIdMint,
    isTopic := false, index := 0, value := 5, logPos := 0 }

/-- An unused filler field. -/
def padField : LogField :=
  { contract := 0, eventID := 0, isTopic := false, index := 0, value := 0,
    logPos := 0 }

/-- A receipt matching the Compound Mint pattern for user address 5. -/
def mintReceipt : Receipt :=
  { blockNum := 0, field0 := mintField0, field1 := mintField1,
    field2 := padField, field3 := padField }

/-- The same receipt with a different selector on the tracked field. -/
def badMintReceipt : Receipt :=
  { mintReceipt with field0 := { mintField0 with eventID := 1 } }

/-- A storage slot matching the TWAP pattern for pair address 7. -/
def twapSlot1 : StorageSlot := { contract := 7, slot := 0, value := 10, blockNum := 0 }

/-- A second storage slot matching the TWAP pattern for pair address 7. -/
def twapSlot2 : StorageSlot := { contract := 7, slot := 1, value := 20, blockNum := 0 }

/-- A transfer log field for the `to` topic, tagged with log position 0. -/
def nftField0 : LogField :=
  { contract := 3, eventID := 0, isTopic := true, index := 2, value := 4,
    logPos := 0 }

/-- A transfer log field for the `tokenId` topic, tagged with log position 1. -/
def nftField1 : LogField :=
  { contract := 3, eventID := 0, isTopic := true, index := 3, value := 6,
    logPos := 1 }

/-- A receipt whose two fields match individually but come from different
log entries. -/
def nftReceipt : Receipt :=
  { blockNum := 0, field0 := nftField0, field1 := nftField1,
    field2 := padField, field3 := padField }

/-- A log field matching the LayerZero PayloadStored pattern. -/
def lzField0 : LogField :=
  { contract := LayerZero.EndpointEthereum,
    eventID := LayerZero.EventIdPayloadStored, isTopic := false,
    index := 2, value := 0, logPos := 0 }

/-- A receipt matching the LayerZero PayloadStored pattern. -/
def lzReceipt : Receipt :=
  { blockNum := 0, field0 := lzField0,
    field1 := padField, field2 := padField, field3 := padField }

/-- The buffer produced for user address 1 on the one-receipt batch. -/
def lzOut1 : List Nat := (LayerZero.define 1 0 [lzReceipt]).toOption.getD []

/-- The buffer produced for user address 2 on the same batch. -/
def lzOut2 : List Nat := (LayerZero.define 2 0 [lzReceipt]).toOption.getD []

theorem beBytes_length (n v : Nat) : (beBytes n v).length = n := by
  induction n generalizing v with
  | zero => rfl
  | succ n ih => simp [beBytes, ih]

theorem decodeBE_beBytes (n v : Nat) : decodeBE (beBytes n v) = v % 256 ^ n := by
  induction n generalizing v with
  | zero => simp [beBytes, decodeBE, Nat.mod_one]
  | succ n ih =>
    have happ : decodeBE (beBytes n (v / 256) ++ [v % 256]) =
        decodeBE (beBytes n (v / 256)) * 256 + v % 256 := by
      simp [decodeBE, List.foldl_append]
    have hmod : v % 256 ^ (n + 1) = v % 256 + 256 * (v / 256 % 256 ^ n) := by
      rw [pow_succ, Nat.mul_comm (256 ^ n) 256, Nat.mod_mul]
    rw [beBytes, happ, ih, hmod]
    omega

theorem foldl_addU248_none (l : List Nat) :
    l.foldl (fun acc x => acc.bind (fun a => addU248 a x)) none = none := by
  induction l with
  | nil => rfl
  | cons x xs ih => simpa using ih

theorem foldl_addU248_some (l : List Nat) : ∀ a : Nat, a < U248_MOD →
    l.foldl (fun acc x => acc.bind (fun b => addU248 b x)) (some a) =
      if a + l.sum < U248_MOD then some (a + l.sum) else none := by
  induction l with
  | nil => intro a ha; simp [ha]
  | cons x xs ih =>
    intro a ha
    simp only [List.foldl_cons, List.sum_cons]
    by_cases hx : a + x < U248_MOD
    · rw [show (some a).bind (fun b => addU248 b x) = some (a + x) by
        simp [addU248, hx]]
      rw [ih (a + x) hx]
      have harr : a + x + xs.sum = a + (x + xs.sum) := by omega
      rw [harr]
    · rw [show (some a).bind (fun b => addU248 b x) = none by simp [addU248, hx]]
      rw [foldl_addU248_none, if_neg (by omega)]

theorem sumU248_eq_sum (l : List Nat) :
    sumU248 l = if l.sum < U248_MOD then some l.sum else none := by
  have h := foldl_addU248_some l 0 (by norm_num [U248_MOD])
  simpa [sumU248] using h

theorem sushiswap_predicate_iff (u : Nat) (r : Receipt) :
    Sushiswap.predicate u r = true ↔ Sushiswap.patternHolds u r := by
  simp [Sushiswap.predicate, Sushiswap.patternHolds, Bool.and_eq_true,
    decide_eq_true_eq, Bool.not_eq_true', and_assoc]

theorem compound_predicate_iff (u : Nat) (r : Receipt) :
    Compound.predicate u r = true ↔ Compound.patternHolds u r := by
  simp [Compound.predicate, Compound.patternHolds, Bool.and_eq_true,
    decide_eq_true_eq, Bool.not_eq_true', and_assoc]

/-- C1: the Batch Validator is exact: it succeeds precisely when every
record's provenance fields (contract, selector/event id, position/index,
is_topic, and the user-parameter value check) equal the declared Pattern —
so a batch with at least one mismatched field on at least one record fails
as a whole, with no silent exclusion of the non-matching record. Stated for
the SushiSwap and Compound circuit patterns named by the claim. -/
theorem batch_validator_exact_matching (u : Nat) (rs : List Receipt) :
    (assertEach (Sushiswap.predicate u) rs = true ↔
        ∀ r ∈ rs, Sushiswap.patternHolds u r) ∧
    (assertEach (Compound.predicate u) rs = true ↔
        ∀ r ∈ rs, Compound.patternHolds u r) := by
  constructor
  · rw [assertEach, List.all_eq_true]
    exact ⟨fun h r hr => (sushiswap_predicate_iff u r).mp (h r hr),
      fun h r hr => (sushiswap_predicate_iff u r).mpr (h r hr)⟩
  · rw [assertEach, List.all_eq_true]
    exact ⟨fun h r hr => (compound_predicate_iff u r).mp (h r hr),
      fun h r hr => (compound_predicate_iff u r).mpr (h r hr)⟩

theorem batch_validator_exact_matching_witness :
    assertEach (Compound.predicate 5) [Compound.mintReceiptW] = true :=
  ((batch_validator_exact_matching 5 [Compound.mintReceiptW]).2).mpr (by
    intro r hr
    rw [List.mem_singleton] at hr
    subst hr
    unfold Compound.patternHolds
    exact ⟨rfl, rfl, rfl, rfl, rfl, rfl, rfl, rfl, rfl⟩)

/-- C2: the Aggregator never overflows silently: if the exact sum of the
extracted scalars exceeds the 248-bit width the sum operation raises an
error (returning no wrapped value at all), and if the sum fits it returns
the exact sum. -/
theorem aggregator_no_silent_overflow (l : List Nat) :
    (U248_MOD ≤ l.sum → sumU248 l = none) ∧
    (l.sum < U248_MOD → sumU248 l = some l.sum) := by
  constructor <;> intro h <;> rw [sumU248_eq_sum]
  · rw [if_neg (by omega)]
  · rw [if_pos h]

theorem aggregator_no_silent_overflow_witness :
    sumU248 [U248_MOD - 1, 1] = none ∧ sumU248 [100, 200] = some 300 := by
  constructor
  · exact (aggregator_no_silent_overflow [U248_MOD - 1, 1]).1
      (by norm_num [List.sum_cons, U248_MOD])
  · have h := (aggregator_no_silent_overflow [100, 200]).2
      (by norm_num [List.sum_cons, U248_MOD])
    simpa using h

/-- C3: the one-sided Threshold Asserter succeeds exactly when
`threshold <= observed` (so lowering `observed` below the threshold makes
it fail), and the two-sided variant succeeds exactly when both
`min <= observed` and `observed <= max`. -/
theorem threshold_asserter_iff :
    (∀ threshold observed : Nat,
        assertIsLessOrEqual threshold observed = true ↔ threshold ≤ observed) ∧
    (∀ threshold observed : Nat,
        observed < threshold → assertIsLessOrEqual threshold observed = false) ∧
    (∀ lo hi observed : Nat,
        twoSidedThresholdAssert lo hi observed = true ↔
          lo ≤ observed ∧ observed ≤ hi) := by
  refine ⟨?_, ?_, ?_⟩ <;> intros <;>
    simp_all [assertIsLessOrEqual, twoSidedThresholdAssert]

theorem threshold_asserter_iff_witness :
    assertIsLessOrEqual 5 7 = true ∧ assertIsLessOrEqual 5 4 = false ∧
    twoSidedThresholdAssert 3 9 6 = true := by
  refine ⟨?_, ?_, ?_⟩
  · exact (threshold_asserter_iff.1 5 7).mpr (by decide)
  · exact threshold_asserter_iff.2.1 5 4 (by decide)
  · exact (threshold_asserter_iff.2.2 3 9 6).mpr (by decide)

/-- C4: the bidirectional matcher accepts a record exactly when the
user-independent pattern conjuncts (contract, event id, field indices of
all four tracked fields) hold and the `u248.Or` of the two designated
sub-patterns holds — so a record whose `to` field equals the user is
accepted even when its `sender` field does not, and conversely, while every
other conjunct must still hold. -/
theorem bidirectional_or_combinator (u : Nat) (r : Receipt) :
    UniswapV2Bidir.predicate u r = true ↔
      UniswapV2Bidir.fixedPatternHolds r ∧
        (toUint248 r.field2.value = u ∨ toUint248 r.field3.value = u) := by
  simp [UniswapV2Bidir.predicate, UniswapV2Bidir.fixedPatternHolds, uOr,
    Bool.and_eq_true, Bool.or_eq_true, decide_eq_true_eq, Bool.not_eq_true',
    and_assoc]

theorem bidirectional_or_combinator_witness :
    UniswapV2Bidir.predicate 5 UniswapV2Bidir.bidirReceiptW = true ∧
    toUint248 UniswapV2Bidir.bidirReceiptW.field2.value ≠ 5 :=
  ⟨(bidirectional_or_combinator 5 UniswapV2Bidir.bidirReceiptW).mpr
    ⟨by
      unfold UniswapV2Bidir.fixedPatternHolds
      exact ⟨rfl, rfl, rfl, rfl, rfl, rfl, rfl, rfl, rfl, rfl, rfl, rfl,
        rfl, rfl, rfl, rfl⟩,
      Or.inr rfl⟩,
    by decide⟩

/-- C6: the Aggregator's sum is order-independent: permuting the batch (or
the list of extracted scalars) never changes the final sum, including its
overflow behavior. -/
theorem sum_order_independence :
    (∀ l l' : List Nat, l.Perm l' → sumU248 l = sumU248 l') ∧
    (∀ rs rs' : List Receipt, rs.Perm rs' →
        sumU248 (rs.map Compound.extract) = sumU248 (rs'.map Compound.extract)) := by
  have key : ∀ l l' : List Nat, l.Perm l' → sumU248 l = sumU248 l' := by
    intro l l' h
    rw [sumU248_eq_sum, sumU248_eq_sum, h.sum_eq]
  exact ⟨key, fun rs rs' h => key _ _ (h.map _)⟩

theorem sum_order_independence_witness :
    sumU248 [1, 2, 3] = sumU248 [2, 1, 3] :=
  sum_order_independence.1 [1, 2, 3] [2, 1, 3] (List.Perm.swap 2 1 [3])

/-- C5: a failed invocation of the Compound circuit yields no output buffer:
an output buffer exists only when batch validation and the threshold
assertion both succeeded; in particular a three-record Mint batch in which
one record carries a different selector produces no output, whatever the
other two records sum to. -/
theorem failed_invocation_no_output :
    (∀ (u m : Nat) (rs : List Receipt) (out : List Nat),
        Compound.define u m rs = .ok out →
          assertEach (Compound.predicate u) rs = true ∧
            ∃ s, sumU248 (rs.map Compound.extract) = some s ∧
              assertIsLessOrEqual m s = true) ∧
    (∀ (u m : Nat) (r1 r2 r3 : Receipt),
        r3.field0.eventID ≠ Compound.EventIdMint →
          ∀ out, Compound.define u m [r1, r2, r3] ≠ .ok out) := by
  constructor
  · intro u m rs out h
    unfold Compound.define at h
    split at h
    · rename_i h1
      split at h
      · exact absurd h (by simp)
      · rename_i s hs
        split at h
        · rename_i h2
          exact ⟨h1, s, hs, h2⟩
        · exact absurd h (by simp)
    · exact absurd h (by simp)
  · intro u m r1 r2 r3 hne out h
    have hpred : Compound.predicate u r3 = false := by
      simp [Compound.predicate, hne]
    have hall : assertEach (Compound.predicate u) [r1, r2, r3] = false := by
      simp [assertEach, List.all_cons, hpred]
    simp [Compound.define, hall] at h

theorem failed_invocation_no_output_witness :
    (assertEach (Compound.predicate 5) [mintReceipt] = true ∧
      ∃ s, sumU248 ([mintReceipt].map Compound.extract) = some s ∧
        assertIsLessOrEqual 0 s = true) ∧
    Compound.define 5 0 [mintReceipt, mintReceipt, badMintReceipt] ≠ .ok [] := by
  constructor
  · exact failed_invocation_no_output.1 5 0 [mintReceipt]
      ((Compound.define 5 0 [mintReceipt]).toOption.getD []) (by rfl)
  · exact failed_invocation_no_output.2 5 0 mintReceipt mintReceipt badMintReceipt
      (by decide) []

theorem pow2_width_eq_pow256 (w : Nat) (hw : w = 64 ∨ w = 160 ∨ w = 248) :
    (2 : Nat) ^ w = 256 ^ (w / 8) := by
  rcases hw with rfl | rfl | rfl <;> norm_num

/-- C7: the Output Encoder round-trips: for every ordered list of values
tagged with widths in \x7b64, 160, 248\x7d, each value within its width, the
encoder produces a buffer of fixed-size big-endian slots in declaration
order, and decoding that buffer at the declared widths reproduces exactly
the values supplied. -/
theorem output_encoder_roundtrip :
    ∀ (slots : List (Nat × Nat)),
      (∀ s ∈ slots, s.1 = 64 ∨ s.1 = 160 ∨ s.1 = 248) →
      (∀ s ∈ slots, s.2 < 2 ^ s.1) →
      ∃ buf, encodeOutputs slots = some buf ∧
        decodeAll (slots.map Prod.fst) buf = slots.map Prod.snd := by
  intro slots
  induction slots with
  | nil => exact fun _ _ => ⟨[], rfl, rfl⟩
  | cons s rest ih =>
    intro hw hv
    obtain ⟨buf, henc, hdec⟩ :=
      ih (fun x hx => hw x (List.mem_cons_of_mem _ hx))
        (fun x hx => hv x (List.mem_cons_of_mem _ hx))
    have hw1 := hw s (List.mem_cons_self _ _)
    have hv1 := hv s (List.mem_cons_self _ _)
    have hpow : (2 : Nat) ^ s.1 = 256 ^ (s.1 / 8) := pow2_width_eq_pow256 s.1 hw1
    have henc1 : encodeSlot s.1 s.2 = some (beBytes (s.1 / 8) s.2) := by
      rw [encodeSlot, if_pos hv1]
    refine ⟨beBytes (s.1 / 8) s.2 ++ buf, ?_, ?_⟩
    · simp [encodeOutputs, henc1, henc]
    · have htake : (beBytes (s.1 / 8) s.2 ++ buf).take (s.1 / 8) =
          beBytes (s.1 / 8) s.2 := List.take_left' (beBytes_length _ _)
      have hdrop : (beBytes (s.1 / 8) s.2 ++ buf).drop (s.1 / 8) = buf :=
        List.drop_left' (beBytes_length _ _)
      simp only [List.map_cons, decodeAll, htake, hdrop, hdec]
      rw [decodeBE_beBytes, Nat.mod_eq_of_lt (by rw [← hpow]; exact hv1)]

theorem output_encoder_roundtrip_witness :
    ∃ buf, encodeOutputs [(64, 7), (160, 5), (248, 9)] = some buf ∧
      decodeAll [64, 160, 248] buf = [7, 5, 9] := by
  have h := output_encoder_roundtrip [(64, 7), (160, 5), (248, 9)]
    (by decide) (by decide)
  simpa using h

theorem twap_define_ok_length {p lo hi sb eb : Nat} {slots : List StorageSlot}
    {out : List Nat}
    (h : UniswapV2Twap.define p lo hi sb eb slots = .ok out) :
    slots.length = 2 := by
  unfold UniswapV2Twap.define at h
  split at h
  · split at h
    · exact absurd h (by simp)
    · split at h
      · rename_i hcount
        exact hcount
      · exact absurd h (by simp)
  · exact absurd h (by simp)

/-- C8: batch capacity is exact, not a maximum: the general Batch Validator
fails any batch whose size differs from the declared capacity (in
particular a smaller one) and on success the count aggregate equals the
declared capacity; likewise for the TWAP circuit (declared capacity 2 in
`Allocate`), which produces an output only when exactly the declared number
of slots is supplied. -/
theorem capacity_is_exact :
    (∀ (cap : Nat) (p : Receipt → Bool) (rs : List Receipt),
        rs.length < cap → ∃ e, validateBatch cap p rs = .error e) ∧
    (∀ (cap : Nat) (p : Receipt → Bool) (rs : List Receipt) (u : Unit),
        validateBatch cap p rs = .ok u → countRecords rs = cap) ∧
    (∀ (p lo hi sb eb : Nat) (slots : List StorageSlot) (out : List Nat),
        UniswapV2Twap.define p lo hi sb eb slots = .ok out →
          countRecords slots = UniswapV2Twap.maxSlots) ∧
    (∀ (p lo hi sb eb : Nat) (slots : List StorageSlot),
        slots.length < UniswapV2Twap.maxSlots →
          ∀ out, UniswapV2Twap.define p lo hi sb eb slots ≠ .ok out) := by
  refine ⟨?_, ?_, ?_, ?_⟩
  · intro cap p rs hlt
    refine ⟨.capacityMismatch, ?_⟩
    unfold validateBatch
    rw [if_neg]
    intro hc
    rw [countRecords] at hc
    omega
  · intro cap p rs u h
    unfold validateBatch at h
    split at h
    · rename_i hc
      exact hc
    · exact absurd h (by simp)
  · intro p lo hi sb eb slots out h
    exact twap_define_ok_length h
  · intro p lo hi sb eb slots hlt out h
    have h2 := twap_define_ok_length h
    rw [UniswapV2Twap.maxSlots] at hlt
    omega

theorem capacity_is_exact_witness :
    (∃ e, validateBatch 2 (fun _ => true) [mintReceipt] = .error e) ∧
    countRecords [mintReceipt] = 1 ∧
    countRecords [twapSlot1, twapSlot2] = UniswapV2Twap.maxSlots ∧
    UniswapV2Twap.define 7 0 1000 0 0 [twapSlot1] ≠ .ok [] := by
  refine ⟨?_, ?_, ?_, ?_⟩
  · exact capacity_is_exact.1 2 (fun _ => true) [mintReceipt] (by decide)
  · exact capacity_is_exact.2.1 1 (fun _ => true) [mintReceipt] () (by rfl)
  · exact capacity_is_exact.2.2.1 7 0 1000 0 0 [twapSlot1, twapSlot2]
      ((UniswapV2Twap.define 7 0 1000 0 0 [twapSlot1, twapSlot2]).toOption.getD [])
      (by rfl)
  · exact capacity_is_exact.2.2.2 7 0 1000 0 0 [twapSlot1] (by decide) []

/-- C9: the NFT ownership circuit requires, beyond the per-field pattern
conjuncts, that the two tracked fields come from the same log entry: an
input whose two fields individually match contract, is_topic, index and
value but carry different LogPos values fails verification. -/
theorem nft_same_log_required :
    ∀ (a o t : Nat) (r : Receipt),
      r.field0.contract = a → r.field0.isTopic = true → r.field0.index = 2 →
      toUint248 r.field0.value = o →
      r.field1.contract = a → r.field1.isTopic = true → r.field1.index = 3 →
      toUint248 r.field1.value = t →
      r.field0.logPos ≠ r.field1.logPos →
      ∀ out, NftOwnership.define a o t r ≠ .ok out := by
  intro a o t r _ _ _ _ _ _ _ _ hne out h
  have hchecks : NftOwnership.checks a o t r = false := by
    simp [NftOwnership.checks, hne]
  simp [NftOwnership.define, hchecks] at h

theorem nft_same_log_required_witness :
    NftOwnership.define 3 4 6 nftReceipt ≠ .ok [] :=
  nft_same_log_required 3 4 6 nftReceipt rfl rfl rfl (by decide) rfl rfl rfl
    (by decide) (by decide) []

theorem encodeOutputs_nil : encodeOutputs [] = some [] := rfl

theorem encodeOutputs_cons (w v : Nat) (rest : List (Nat × Nat)) :
    encodeOutputs ((w, v) :: rest) =
      if v < 2 ^ w then
        (encodeOutputs rest).map (fun bs => beBytes (w / 8) v ++ bs)
      else none := by
  by_cases hv : v < 2 ^ w
  · simp [encodeOutputs, encodeSlot, hv]
  · simp [encodeOutputs, encodeSlot, hv]

theorem encodeOutputs_cons_addr (u : Nat) (hu : u < 2 ^ 160)
    (rest : List (Nat × Nat)) :
    encodeOutputs ((160, u) :: rest) =
      (encodeOutputs rest).map (fun bs => beBytes 20 u ++ bs) := by
  rw [encodeOutputs_cons, if_pos hu]

theorem encodeOutputs_two64 (c m : Nat) (rbuf : List Nat)
    (h : encodeOutputs [(64, c), (64, m)] = some rbuf) :
    c < 2 ^ 64 ∧ rbuf = beBytes 8 c ++ beBytes 8 m := by
  rw [encodeOutputs_cons, encodeOutputs_cons, encodeOutputs_nil] at h
  by_cases hc : c < 2 ^ 64
  · by_cases hm : m < 2 ^ 64
    · rw [if_pos hc, if_pos hm] at h
      refine ⟨hc, ?_⟩
      have h' : some (beBytes (64 / 8) c ++ (beBytes (64 / 8) m ++ [])) =
          some rbuf := h
      have h'' := Option.some.inj h'
      rw [← h'']
      norm_num
    · rw [if_pos hc, if_neg hm] at h
      simp at h
  · rw [if_neg hc] at h
    simp at h

theorem except_error_case {ε α : Type} {e : ε} {d1 d2 : Except ε α}
    {P : α → α → Prop} (h1 : d1 = .error e) (h2 : d2 = .error e) :
    ((∃ o, d1 = .ok o) ↔ (∃ o, d2 = .ok o)) ∧
    (∀ o1 o2, d1 = .ok o1 → d2 = .ok o2 → P o1 o2) := by
  subst h1
  subst h2
  constructor
  · simp
  · intro o1 o2 h _
    exact absurd h (by simp)

/-- C10: the LayerZero message circuit never verifies the claimed user: for
any two user addresses (holding the count threshold and the batch fixed),
the invocation with one succeeds exactly when the invocation with the other
succeeds, and the produced buffers agree beyond the first 20 bytes — the
user address is only echoed in the address slot, and the counted message
total is the batch size either way. -/
theorem layerzero_useraddr_not_verified :
    ∀ (u1 u2 m : Nat) (rs : List Receipt),
      u1 < 2 ^ 160 → u2 < 2 ^ 160 →
      ((∃ o, LayerZero.define u1 m rs = .ok o) ↔
          (∃ o, LayerZero.define u2 m rs = .ok o)) ∧
      (∀ o1 o2, LayerZero.define u1 m rs = .ok o1 →
          LayerZero.define u2 m rs = .ok o2 →
          o1.drop 20 = o2.drop 20 ∧
          o1.take 20 = beBytes 20 u1 ∧ o2.take 20 = beBytes 20 u2 ∧
          decodeBE ((o1.drop 20).take 8) = countRecords rs) := by
  intro u1 u2 m rs hu1 hu2
  by_cases h1 : assertEach LayerZero.predicate rs
  · by_cases h2 : assertIsLessOrEqual m (countRecords rs)
    · cases hr : encodeOutputs [(64, countRecords rs), (64, m)] with
      | none =>
        have e1 : LayerZero.define u1 m rs = .error .overflow := by
          unfold LayerZero.define
          rw [if_pos h1, if_pos h2, encodeOutputs_cons_addr u1 hu1, hr]
          rfl
        have e2 : LayerZero.define u2 m rs = .error .overflow := by
          unfold LayerZero.define
          rw [if_pos h1, if_pos h2, encodeOutputs_cons_addr u2 hu2, hr]
          rfl
        exact except_error_case e1 e2
      | some rbuf =>
        have e1 : LayerZero.define u1 m rs = .ok (beBytes 20 u1 ++ rbuf) := by
          unfold LayerZero.define
          rw [if_pos h1, if_pos h2, encodeOutputs_cons_addr u1 hu1, hr]
          rfl
        have e2 : LayerZero.define u2 m rs = .ok (beBytes 20 u2 ++ rbuf) := by
          unfold LayerZero.define
          rw [if_pos h1, if_pos h2, encodeOutputs_cons_addr u2 hu2, hr]
          rfl
        obtain ⟨hc, hrbuf⟩ := encodeOutputs_two64 _ _ _ hr
        constructor
        · rw [e1, e2]
          exact ⟨fun _ => ⟨_, rfl⟩, fun _ => ⟨_, rfl⟩⟩
        · intro o1 o2 ho1 ho2
          rw [e1] at ho1
          rw [e2] at ho2
          have ho1' : o1 = beBytes 20 u1 ++ rbuf := (Except.ok.inj ho1).symm
          have ho2' : o2 = beBytes 20 u2 ++ rbuf := (Except.ok.inj ho2).symm
          rw [ho1', ho2']
          refine ⟨?_, ?_, ?_, ?_⟩
          · rw [List.drop_left' (beBytes_length _ _),
              List.drop_left' (beBytes_length _ _)]
          · exact List.take_left' (beBytes_length _ _)
          · exact List.take_left' (beBytes_length _ _)
          · rw [List.drop_left' (beBytes_length _ _), hrbuf,
              List.take_left' (beBytes_length _ _), decodeBE_beBytes,
              Nat.mod_eq_of_lt (by norm_num at hc ⊢; omega)]
    · have e1 : LayerZero.define u1 m rs = .error .thresholdUnmet := by
        unfold LayerZero.define
        rw [if_pos h1, if_neg h2]
      have e2 : LayerZero.define u2 m rs = .error .thresholdUnmet := by
        unfold LayerZero.define
        rw [if_pos h1, if_neg h2]
      exact except_error_case e1 e2
  · have e1 : LayerZero.define u1 m rs = .error .patternMismatch := by
      unfold LayerZero.define
      rw [if_neg h1]
    have e2 : LayerZero.define u2 m rs = .error .patternMismatch := by
      unfold LayerZero.define
      rw [if_neg h1]
    exact except_error_case e1 e2

theorem layerzero_useraddr_not_verified_witness :
    lzOut1.drop 20 = lzOut2.drop 20 ∧
    lzOut1.take 20 = beBytes 20 1 ∧ lzOut2.take 20 = beBytes 20 2 ∧
    decodeBE ((lzOut1.drop 20).take 8) = countRecords [lzReceipt] :=
  (layerzero_useraddr_not_verified 1 2 0 [lzReceipt] (by norm_num)
      (by norm_num)).2 lzOut1 lzOut2 (by rfl) (by rfl)

end BrevisSpec
